import Mathlib

/-!
Shallow embedding of `pattern.py` (Iterator design-pattern demo): a `Book`
record, a `BookCollection` aggregate over an in-memory list, and a
`BookIterator` cursor supporting forward and reverse traversal.

Python state is made explicit: the iterator's mutable `_position` becomes a
field of `BookIterator`, and `__next__` returns the advanced iterator state
alongside its result.  The collection is passed to `has_next` / `next` at
each call, mirroring the live (by-reference) reads of `self._collection`.
Errors (`IndexError`, `StopIteration`) become an explicit error type.
-/

/-- Model of `Book` from `pattern.py`: a title/author pair with value equality. -/
structure Book where
  title : String
  author : String
deriving DecidableEq, Repr

/-- The two error signals of the program: `IndexError` raised by
`BookCollection.__getitem__`, and `StopIteration` raised by
`BookIterator.__next__`. -/
inductive PatternError where
  | outOfRange
  | exhausted
deriving DecidableEq, Repr

/-- Model of `BookCollection`: holds the ordered list `self._books`. -/
structure BookCollection where
  books : List Book
deriving DecidableEq, Repr

/-- Method `BookCollection.add_book`: appends a book at the end of `_books`. -/
def BookCollection.add_book (c : BookCollection) (b : Book) : BookCollection :=
  ⟨c.books ++ [b]⟩

/-- Method `BookCollection.count` (= `__len__`): number of books. -/
def BookCollection.count (c : BookCollection) : Nat :=
  c.books.length

/-- Method `BookCollection.__getitem__`: bounds-checked indexed access.  The Python
guard is `0 <= index < len(self._books)`; outside it, `IndexError` is
raised.  The index is an `Int` since Python callers may pass negatives. -/
def BookCollection.getItem (c : BookCollection) (index : Int) :
    Except PatternError Book :=
  if h : 0 ≤ index ∧ index < (c.books.length : Int) then
    .ok (c.books.get ⟨index.toNat, by omega⟩)
  else
    .error .outOfRange

/-- State of a `BookIterator`: the `reverse` flag fixed at construction and the
mutable `_position` cursor (an `Int`: a reverse cursor ends at `-1`). -/
structure BookIterator where
  reverse : Bool
  position : Int
deriving DecidableEq, Repr

/-- Constructor `BookIterator.__init__`: `_position = len(collection) - 1 if reverse
else 0`. -/
def BookIterator.init (c : BookCollection) (reverse : Bool) : BookIterator :=
  ⟨reverse, if reverse then (c.books.length : Int) - 1 else 0⟩

/-- Method `BookCollection.create_iterator`: a forward iterator (cursor 0). -/
def BookCollection.create_iterator (c : BookCollection) : BookIterator :=
  BookIterator.init c false

/-- Method `BookCollection.get_reverse_iterator`: a reverse iterator (cursor
`count() - 1`). -/
def BookCollection.get_reverse_iterator (c : BookCollection) : BookIterator :=
  BookIterator.init c true

/-- Method `BookIterator.has_next`: `position >= 0` in reverse mode, else
`position < len(self._collection)` — the length is re-read live. -/
def BookIterator.has_next (it : BookIterator) (c : BookCollection) : Bool :=
  if it.reverse then it.position ≥ 0
  else it.position < (c.books.length : Int)

/-- Method `BookIterator.__next__`: raises `StopIteration` when `has_next` is
false (leaving `_position` untouched); otherwise reads
`self._collection[self._position]` and moves the cursor by `-1` (reverse)
or `+1` (forward).  Returns the book together with the advanced state. -/
def BookIterator.next (it : BookIterator) (c : BookCollection) :
    Except PatternError (Book × BookIterator) :=
  if it.has_next c then
    match c.getItem it.position with
    | .ok book =>
        .ok (book, { it with
          position := it.position + (if it.reverse then -1 else 1) })
    | .error e => .error e
  else
    .error .exhausted

/-- One observable call to `__next__`: the result that the caller sees, and
the iterator state afterwards (unchanged when an error is raised). -/
def stepIter (c : BookCollection) (it : BookIterator) :
    Except PatternError Book × BookIterator :=
  match it.next c with
  | .ok (b, it') => (.ok b, it')
  | .error e => (.error e, it)

/-- Runs `k` successive calls to `__next__` on one iterator over a fixed
collection: the list of observed results and the final iterator state. -/
def runNext (c : BookCollection) : Nat → BookIterator →
    List (Except PatternError Book) × BookIterator
  | 0, it => ([], it)
  | k + 1, it =>
      let s := stepIter c it
      let r := runNext c k s.2
      (s.1 :: r.1, r.2)

/-- Interleaved execution of two iterators over the same collection: the
schedule says at each step which iterator's `__next__` is called (`true`
for the first).  Returns each iterator's observed results and final state. -/
def runPair (c : BookCollection) :
    List Bool → BookIterator → BookIterator →
    (List (Except PatternError Book) × List (Except PatternError Book)) ×
      BookIterator × BookIterator
  | [], it1, it2 => (([], []), it1, it2)
  | pick :: rest, it1, it2 =>
      if pick then
        let s := stepIter c it1
        let r := runPair c rest s.2 it2
        ((s.1 :: r.1.1, r.1.2), r.2)
      else
        let s := stepIter c it2
        let r := runPair c rest it1 s.2
        ((r.1.1, s.1 :: r.1.2), r.2)

/-- Results of `__next__` calls are compared for equality in concrete
scenarios; `Except` ships no such instance, so decide it by cases. -/
instance {ε α : Type} [DecidableEq ε] [DecidableEq α] :
    DecidableEq (Except ε α) := fun x y =>
  match x, y with
  | .ok a, .ok b =>
      if h : a = b then isTrue (by rw [h])
      else isFalse fun hh => h (Except.ok.inj hh)
  | .ok _, .error _ => isFalse fun hh => Except.noConfusion hh
  | .error _, .ok _ => isFalse fun hh => Except.noConfusion hh
  | .error e, .error f =>
      if h : e = f then isTrue (by rw [h])
      else isFalse fun hh => h (Except.error.inj hh)

/- ## Helper lemmas -/

lemma getItem_in_range (c : BookCollection) (p : Nat) (hp : p < c.books.length) :
    c.getItem (p : Int) = .ok (c.books.get ⟨p, hp⟩) := by
  rw [BookCollection.getItem, dif_pos (by omega)]
  congr 1

lemma getItem_out_of_range (c : BookCollection) (i : Int)
    (hi : i < 0 ∨ (c.books.length : Int) ≤ i) :
    c.getItem i = .error .outOfRange := by
  rw [BookCollection.getItem, dif_neg (by omega)]

lemma stepIter_not_has_next (c : BookCollection) (it : BookIterator)
    (h : it.has_next c = false) :
    stepIter c it = (.error .exhausted, it) := by
  simp [stepIter, BookIterator.next, h]

lemma runNext_exhausted (c : BookCollection) (it : BookIterator)
    (h : it.has_next c = false) :
    ∀ k : Nat, runNext c k it = (List.replicate k (.error .exhausted), it) := by
  intro k
  induction k with
  | zero => rfl
  | succ k ih => simp [runNext, stepIter_not_has_next c it h, ih, List.replicate_succ]

lemma runNext_add (c : BookCollection) (k j : Nat) :
    ∀ it : BookIterator,
      runNext c (k + j) it =
        ((runNext c k it).1 ++ (runNext c j (runNext c k it).2).1,
          (runNext c j (runNext c k it).2).2) := by
  induction k with
  | zero => intro it; simp [runNext]
  | succ k ih =>
      intro it
      rw [Nat.succ_add]
      simp only [runNext, ih, List.cons_append]

lemma stepIter_forward (c : BookCollection) (p : Nat) (hp : p < c.books.length) :
    stepIter c ⟨false, (p : Int)⟩ =
      (.ok (c.books.get ⟨p, hp⟩), ⟨false, ((p + 1 : Nat) : Int)⟩) := by
  have hh : (⟨false, (p : Int)⟩ : BookIterator).has_next c = true := by
    simp [BookIterator.has_next]; omega
  simp [stepIter, BookIterator.next, hh, getItem_in_range c p hp]

lemma stepIter_reverse (c : BookCollection) (q : Nat) (hq : q < c.books.length) :
    stepIter c ⟨true, (q : Int)⟩ =
      (.ok (c.books.get ⟨q, hq⟩), ⟨true, (q : Int) - 1⟩) := by
  have hh : (⟨true, (q : Int)⟩ : BookIterator).has_next c = true := by
    simp [BookIterator.has_next]
  simp [stepIter, BookIterator.next, hh, getItem_in_range c q hq]
  omega

lemma runNext_forward (c : BookCollection) :
    ∀ (k p : Nat), p + k = c.books.length →
      runNext c k ⟨false, (p : Int)⟩ =
        ((c.books.drop p).map Except.ok, ⟨false, (c.books.length : Int)⟩) := by
  intro k
  induction k with
  | zero =>
      intro p hp
      have hp' : p = c.books.length := by omega
      subst hp'
      simp [runNext, List.drop_length]
  | succ k ih =>
      intro p hp
      have hlt : p < c.books.length := by omega
      rw [runNext]
      simp only [stepIter_forward c p hlt, ih (p + 1) (by omega)]
      have hlt2 :
          p < (c.books.map (Except.ok : Book → Except PatternError Book)).length := by
        simpa using hlt
      simp only [List.get_eq_getElem, List.map_drop]
      rw [List.drop_eq_getElem_cons hlt2]
      simp

lemma runNext_reverse (c : BookCollection) :
    ∀ (q : Nat), q < c.books.length →
      runNext c (q + 1) ⟨true, (q : Int)⟩ =
        (((c.books.take (q + 1)).reverse).map Except.ok, ⟨true, -1⟩) := by
  intro q
  induction q with
  | zero =>
      intro hq
      rw [runNext]
      simp only [stepIter_reverse c 0 hq]
      simp [runNext, List.take_succ, List.getElem?_eq_getElem hq,
        List.get_eq_getElem]
  | succ q ih =>
      intro hq
      rw [runNext]
      simp only [stepIter_reverse c (q + 1) hq]
      have hcast : ((q + 1 : Nat) : Int) - 1 = (q : Int) := by omega
      rw [hcast, ih (by omega)]
      conv_rhs => rw [List.take_succ, List.getElem?_eq_getElem hq]
      simp only [Option.toList_some, List.reverse_append, List.reverse_singleton,
        List.singleton_append, List.map_cons, List.get_eq_getElem]

lemma getItem_append_agree (c : BookCollection) (ext : List Book) (i : Int)
    (hi : i < (c.books.length : Int)) :
    BookCollection.getItem ⟨c.books ++ ext⟩ i = c.getItem i := by
  rcases lt_or_le i 0 with h0 | h0
  · rw [getItem_out_of_range ⟨c.books ++ ext⟩ i (Or.inl h0),
      getItem_out_of_range c i (Or.inl h0)]
  · obtain ⟨p, rfl⟩ : ∃ p : Nat, i = (p : Int) := ⟨i.toNat, by omega⟩
    have hp : p < c.books.length := by omega
    have hp2 : p < (BookCollection.books ⟨c.books ++ ext⟩).length := by
      simp; omega
    rw [getItem_in_range ⟨c.books ++ ext⟩ p hp2, getItem_in_range c p hp]
    simp only [List.get_eq_getElem]
    rw [List.getElem_append_left]

lemma stepIter_append_agree (c : BookCollection) (ext : List Book)
    (it : BookIterator) (hr : it.reverse = true)
    (hpos : it.position < (c.books.length : Int)) :
    stepIter ⟨c.books ++ ext⟩ it = stepIter c it := by
  have hh : BookIterator.has_next it ⟨c.books ++ ext⟩ = it.has_next c := by
    simp [BookIterator.has_next, hr]
  simp only [stepIter, BookIterator.next, hh,
    getItem_append_agree c ext it.position hpos]

lemma stepIter_reverse_state (c : BookCollection) (it : BookIterator)
    (hr : it.reverse = true) :
    (stepIter c it).2.reverse = true ∧
      (stepIter c it).2.position ≤ it.position := by
  simp only [stepIter, BookIterator.next]
  by_cases hh : it.has_next c
  · cases hgi : c.getItem it.position with
    | ok b => simp [hh, hgi, hr]
    | error e => simp [hh, hgi, hr]
  · simp [hh, hr]

lemma runNext_append_agree (c : BookCollection) (ext : List Book) :
    ∀ (k : Nat) (it : BookIterator), it.reverse = true →
      it.position < (c.books.length : Int) →
      runNext ⟨c.books ++ ext⟩ k it = runNext c k it := by
  intro k
  induction k with
  | zero => intro it _ _; rfl
  | succ k ih =>
      intro it hr hpos
      have hst := stepIter_reverse_state c it hr
      rw [runNext, runNext, stepIter_append_agree c ext it hr hpos,
        ih (stepIter c it).2 hst.1 (lt_of_le_of_lt hst.2 hpos)]

/- ## Claim theorems -/

/-- Claim C1: over a collection of size `n ≥ 1` whose elements are not
changed during traversal, a forward iterator obtained from
`create_iterator` returns, over its first `n` calls to `__next__`, exactly
the `n` books in insertion order, and the `(n+1)`-th call raises
`StopIteration` (Exhausted). -/
theorem forward_traversal_yields_in_order (c : BookCollection)
    (h : 1 ≤ c.count) :
    runNext c (c.count + 1) c.create_iterator =
      (c.books.map Except.ok ++ [Except.error .exhausted],
        ⟨false, (c.count : Int)⟩) := by
  have hrun := runNext_forward c c.books.length 0 (by omega)
  rw [Nat.cast_zero, List.drop_zero] at hrun
  have hexh : (⟨false, (c.books.length : Int)⟩ : BookIterator).has_next c
      = false := by
    simp [BookIterator.has_next]
  show runNext c (c.books.length + 1) ⟨false, 0⟩ = _
  rw [runNext_add c c.books.length 1, hrun,
    runNext_exhausted c ⟨false, (c.books.length : Int)⟩ hexh 1]
  rfl

theorem forward_traversal_yields_in_order_witness :
    1 ≤ (⟨[⟨"A", "x"⟩, ⟨"B", "y"⟩]⟩ : BookCollection).count ∧
    runNext ⟨[⟨"A", "x"⟩, ⟨"B", "y"⟩]⟩
        ((⟨[⟨"A", "x"⟩, ⟨"B", "y"⟩]⟩ : BookCollection).count + 1)
        (BookCollection.create_iterator ⟨[⟨"A", "x"⟩, ⟨"B", "y"⟩]⟩) =
      ((⟨[⟨"A", "x"⟩, ⟨"B", "y"⟩]⟩ : BookCollection).books.map Except.ok ++
          [Except.error .exhausted],
        ⟨false, ((⟨[⟨"A", "x"⟩, ⟨"B", "y"⟩]⟩ : BookCollection).count : Int)⟩) :=
  ⟨by decide,
    forward_traversal_yields_in_order ⟨[⟨"A", "x"⟩, ⟨"B", "y"⟩]⟩ (by decide)⟩

/-- Claim C2: over a collection of size `n ≥ 1` whose elements are not
changed during traversal, a reverse iterator obtained from
`get_reverse_iterator` (cursor initialized to `count() - 1`) returns over
its first `n` calls exactly the `n` books in strictly reverse insertion
order, and the `(n+1)`-th call raises `StopIteration`. -/
theorem reverse_traversal_yields_reverse_order (c : BookCollection)
    (h : 1 ≤ c.count) :
    runNext c (c.count + 1) c.get_reverse_iterator =
      (c.books.reverse.map Except.ok ++ [Except.error .exhausted],
        ⟨true, -1⟩) := by
  obtain ⟨q, hq⟩ : ∃ q : Nat, c.books.length = q + 1 :=
    ⟨c.books.length - 1, by
      simp only [BookCollection.count] at h
      omega⟩
  have hit : c.get_reverse_iterator = ⟨true, (q : Int)⟩ := by
    have hc : (c.books.length : Int) - 1 = (q : Int) := by omega
    simp [BookCollection.get_reverse_iterator, BookIterator.init, hc]
  have hrun := runNext_reverse c q (by omega)
  have htake : c.books.take (q + 1) = c.books := by
    rw [← hq]
    exact List.take_length _
  rw [htake] at hrun
  have hexh : (⟨true, -1⟩ : BookIterator).has_next c = false := by
    simp [BookIterator.has_next]
  show runNext c (c.books.length + 1) _ = _
  rw [hq, hit, runNext_add c (q + 1) 1, hrun,
    runNext_exhausted c ⟨true, -1⟩ hexh 1]
  rfl

theorem reverse_traversal_yields_reverse_order_witness :
    1 ≤ (⟨[⟨"A", "x"⟩, ⟨"B", "y"⟩]⟩ : BookCollection).count ∧
    runNext ⟨[⟨"A", "x"⟩, ⟨"B", "y"⟩]⟩
        ((⟨[⟨"A", "x"⟩, ⟨"B", "y"⟩]⟩ : BookCollection).count + 1)
        (BookCollection.get_reverse_iterator ⟨[⟨"A", "x"⟩, ⟨"B", "y"⟩]⟩) =
      ((⟨[⟨"A", "x"⟩, ⟨"B", "y"⟩]⟩ : BookCollection).books.reverse.map
          Except.ok ++ [Except.error .exhausted],
        ⟨true, -1⟩) :=
  ⟨by decide,
    reverse_traversal_yields_reverse_order ⟨[⟨"A", "x"⟩, ⟨"B", "y"⟩]⟩
      (by decide)⟩

/-- Claim C5: an iterator created from an empty collection (forward via
`create_iterator`, or reverse) starts Exhausted: `has_next` is false and
the first `__next__` raises `StopIteration` immediately; over a non-empty
collection an iterator starts Active. -/
theorem traversal_initial_state (c : BookCollection) :
    ((c.create_iterator).has_next c = false ↔ c.count = 0) ∧
    ((c.get_reverse_iterator).has_next c = false ↔ c.count = 0) ∧
    (c.count = 0 →
      (c.create_iterator).next c = .error .exhausted ∧
      (c.get_reverse_iterator).next c = .error .exhausted) := by
  have h1 : (c.create_iterator).has_next c = false ↔ c.count = 0 := by
    simp [BookCollection.create_iterator, BookIterator.init,
      BookIterator.has_next, BookCollection.count]
  have h2 : (c.get_reverse_iterator).has_next c = false ↔ c.count = 0 := by
    simp [BookCollection.get_reverse_iterator, BookIterator.init,
      BookIterator.has_next, BookCollection.count]
  refine ⟨h1, h2, fun h0 => ⟨?_, ?_⟩⟩
  · simp [BookIterator.next, h1.mpr h0]
  · simp [BookIterator.next, h2.mpr h0]

theorem traversal_initial_state_witness :
    (BookCollection.create_iterator ⟨[]⟩).has_next ⟨[]⟩ = false ∧
    (BookCollection.get_reverse_iterator ⟨[]⟩).has_next ⟨[]⟩ = false ∧
    (BookCollection.create_iterator ⟨[]⟩).next ⟨[]⟩ = .error .exhausted ∧
    (BookCollection.get_reverse_iterator ⟨[]⟩).next ⟨[]⟩ =
      .error .exhausted :=
  ⟨(traversal_initial_state ⟨[]⟩).1.mpr rfl,
    (traversal_initial_state ⟨[]⟩).2.1.mpr rfl,
    ((traversal_initial_state ⟨[]⟩).2.2 rfl).1,
    ((traversal_initial_state ⟨[]⟩).2.2 rfl).2⟩

/-- Claim C6: `__getitem__` raises `IndexError` (OutOfRange) iff the index
is negative or at least `count()`; in range it returns the book at that
position (the collection itself is a pure input, never modified).  In
particular index `-1` and index `count()` always raise `IndexError`. -/
theorem getItem_contract (c : BookCollection) :
    (∀ index : Int, c.getItem index = .error .outOfRange ↔
      (index < 0 ∨ (c.count : Int) ≤ index)) ∧
    (∀ i : Fin c.books.length,
      c.getItem ((i : Nat) : Int) = .ok (c.books.get i)) ∧
    c.getItem (-1) = .error .outOfRange ∧
    c.getItem ((c.count : Nat) : Int) = .error .outOfRange := by
  refine ⟨fun index => ?_, fun i => ?_, ?_, ?_⟩
  · by_cases hin : 0 ≤ index ∧ index < (c.books.length : Int)
    · rw [BookCollection.getItem, dif_pos hin]
      simp only [BookCollection.count]
      constructor
      · intro hc
        exact absurd hc (by simp)
      · intro hc
        omega
    · rw [getItem_out_of_range c index (by omega)]
      simp only [BookCollection.count]
      constructor
      · intro _
        omega
      · intro _
        trivial
  · simpa using getItem_in_range c i.val i.isLt
  · exact getItem_out_of_range c (-1) (by omega)
  · exact getItem_out_of_range c _ (by simp [BookCollection.count])

theorem getItem_contract_witness :
    BookCollection.getItem ⟨[⟨"A", "x"⟩]⟩ (-1) = .error .outOfRange ∧
    BookCollection.getItem ⟨[⟨"A", "x"⟩]⟩ 0 = .ok ⟨"A", "x"⟩ ∧
    BookCollection.getItem ⟨[⟨"A", "x"⟩]⟩ 1 = .error .outOfRange :=
  ⟨(getItem_contract ⟨[⟨"A", "x"⟩]⟩).2.2.1,
    by simpa using (getItem_contract ⟨[⟨"A", "x"⟩]⟩).2.1 ⟨0, by decide⟩,
    by simpa using (getItem_contract ⟨[⟨"A", "x"⟩]⟩).2.2.2⟩

/-- Claim C8: `has_next` is a pure predicate of the iterator state and the
collection — it moves no cursor and mutates nothing (it is a function in
this embedding), and its value is exactly `cursor < source.count()` in
forward mode and `cursor >= 0` in reverse mode, so repeated calls without
an intervening `__next__` always return the same result. -/
theorem has_next_pure_formula (c : BookCollection) (it : BookIterator) :
    (it.reverse = true → (it.has_next c = true ↔ 0 ≤ it.position)) ∧
    (it.reverse = false →
      (it.has_next c = true ↔ it.position < (c.count : Int))) := by
  constructor <;> intro hr <;>
    simp [BookIterator.has_next, hr, BookCollection.count]

theorem has_next_pure_formula_witness :
    (⟨true, 0⟩ : BookIterator).has_next ⟨[⟨"A", "x"⟩]⟩ = true :=
  ((has_next_pure_formula ⟨[⟨"A", "x"⟩]⟩ ⟨true, 0⟩).1 rfl).mpr (by decide)

/-- Claim C9: when `has_next` is false, `__next__` raises `StopIteration`
and leaves the iterator state entirely unchanged — the cursor is not moved
by the failing call, so repeating it gives the same outcome and any later
observation sees the same cursor. -/
theorem next_on_exhausted_unchanged (c : BookCollection) (it : BookIterator)
    (h : it.has_next c = false) :
    it.next c = .error .exhausted ∧
    stepIter c it = (.error .exhausted, it) ∧
    ∀ k : Nat, runNext c k it = (List.replicate k (.error .exhausted), it) := by
  refine ⟨?_, stepIter_not_has_next c it h, runNext_exhausted c it h⟩
  simp [BookIterator.next, h]

theorem next_on_exhausted_unchanged_witness :
    (⟨false, 1⟩ : BookIterator).next ⟨[⟨"A", "x"⟩]⟩ = .error .exhausted ∧
    stepIter ⟨[⟨"A", "x"⟩]⟩ ⟨false, 1⟩ = (.error .exhausted, ⟨false, 1⟩) ∧
    runNext ⟨[⟨"A", "x"⟩]⟩ 2 ⟨false, 1⟩ =
      (List.replicate 2 (.error .exhausted), ⟨false, 1⟩) :=
  ⟨(next_on_exhausted_unchanged ⟨[⟨"A", "x"⟩]⟩ ⟨false, 1⟩ (by decide)).1,
    (next_on_exhausted_unchanged ⟨[⟨"A", "x"⟩]⟩ ⟨false, 1⟩ (by decide)).2.1,
    (next_on_exhausted_unchanged ⟨[⟨"A", "x"⟩]⟩ ⟨false, 1⟩ (by decide)).2.2 2⟩

/-- Claim C7: two iterators over the same collection advance fully
independently.  For every interleaving schedule, the interleaved execution
yields, per iterator, exactly the results and final cursor of running that
iterator alone for the same number of its own calls; `__next__` on one
iterator touches neither the other's cursor nor the collection (the
collection is a read-only input of every traversal operation in this
embedding). -/
theorem two_traversals_independent (c : BookCollection) (s : List Bool) :
    ∀ it1 it2 : BookIterator,
      runPair c s it1 it2 =
        (((runNext c (s.count true) it1).1,
            (runNext c (s.count false) it2).1),
          (runNext c (s.count true) it1).2,
          (runNext c (s.count false) it2).2) := by
  induction s with
  | nil => intro it1 it2; rfl
  | cons pick rest ih =>
      intro it1 it2
      cases pick
      · have hct : (false :: rest).count true = rest.count true := by simp
        have hcf : (false :: rest).count false = rest.count false + 1 := by
          simp
        rw [hct, hcf]
        show (((runPair c (false :: rest) it1 it2).1.1,
            (runPair c (false :: rest) it1 it2).1.2),
          (runPair c (false :: rest) it1 it2).2.1,
          (runPair c (false :: rest) it1 it2).2.2) = _
        simp only [runPair, if_neg Bool.false_ne_true, ih, runNext]
      · have hct : (true :: rest).count true = rest.count true + 1 := by simp
        have hcf : (true :: rest).count false = rest.count false := by simp
        rw [hct, hcf]
        show (((runPair c (true :: rest) it1 it2).1.1,
            (runPair c (true :: rest) it1 it2).1.2),
          (runPair c (true :: rest) it1 it2).2.1,
          (runPair c (true :: rest) it1 it2).2.2) = _
        simp only [runPair, ih, runNext]
        simp

theorem two_traversals_independent_witness :
    runPair ⟨[⟨"A", "x"⟩, ⟨"B", "y"⟩]⟩ [true, false, true, false]
        (BookCollection.create_iterator ⟨[⟨"A", "x"⟩, ⟨"B", "y"⟩]⟩)
        (BookCollection.get_reverse_iterator ⟨[⟨"A", "x"⟩, ⟨"B", "y"⟩]⟩) =
      (((runNext ⟨[⟨"A", "x"⟩, ⟨"B", "y"⟩]⟩
            ([true, false, true, false].count true)
            (BookCollection.create_iterator ⟨[⟨"A", "x"⟩, ⟨"B", "y"⟩]⟩)).1,
          (runNext ⟨[⟨"A", "x"⟩, ⟨"B", "y"⟩]⟩
            ([true, false, true, false].count false)
            (BookCollection.get_reverse_iterator
              ⟨[⟨"A", "x"⟩, ⟨"B", "y"⟩]⟩)).1),
        (runNext ⟨[⟨"A", "x"⟩, ⟨"B", "y"⟩]⟩
          ([true, false, true, false].count true)
          (BookCollection.create_iterator ⟨[⟨"A", "x"⟩, ⟨"B", "y"⟩]⟩)).2,
        (runNext ⟨[⟨"A", "x"⟩, ⟨"B", "y"⟩]⟩
          ([true, false, true, false].count false)
          (BookCollection.get_reverse_iterator
            ⟨[⟨"A", "x"⟩, ⟨"B", "y"⟩]⟩)).2) :=
  two_traversals_independent ⟨[⟨"A", "x"⟩, ⟨"B", "y"⟩]⟩
    [true, false, true, false]
    (BookCollection.create_iterator ⟨[⟨"A", "x"⟩, ⟨"B", "y"⟩]⟩)
    (BookCollection.get_reverse_iterator ⟨[⟨"A", "x"⟩, ⟨"B", "y"⟩]⟩)

/-- Claim C10: a reverse iterator's window is fixed at creation: its whole
run over the collection extended by any later appends is identical to its
run over the original collection (so appended books are never returned —
the cursor starts at `count - 1` and only decreases), and over the
original collection it yields exactly the books at indices `n-1` down to
`0`. -/
theorem reverse_traversal_fixed_window (c : BookCollection) (ext : List Book)
    (k : Nat) :
    runNext ⟨c.books ++ ext⟩ k c.get_reverse_iterator =
      runNext c k c.get_reverse_iterator ∧
    (runNext c c.count c.get_reverse_iterator).1 =
      c.books.reverse.map Except.ok := by
  constructor
  · apply runNext_append_agree c ext k c.get_reverse_iterator rfl
    show (c.books.length : Int) - 1 < (c.books.length : Int)
    omega
  · rcases Nat.eq_zero_or_pos c.books.length with h0 | hpos
    · have hnil : c.books = [] := List.length_eq_zero.mp h0
      simp [BookCollection.count, hnil, runNext]
    · obtain ⟨q, hq⟩ : ∃ q : Nat, c.books.length = q + 1 :=
        ⟨c.books.length - 1, by omega⟩
      have hc : (c.books.length : Int) - 1 = (q : Int) := by omega
      have hit : c.get_reverse_iterator = ⟨true, (q : Int)⟩ := by
        simp [BookCollection.get_reverse_iterator, BookIterator.init, hc]
      have hrun := runNext_reverse c q (by omega)
      have htake : c.books.take (q + 1) = c.books := by
        rw [← hq]
        exact List.take_length _
      rw [htake] at hrun
      show (runNext c c.books.length _).1 = _
      rw [hq, hit, hrun]

theorem reverse_traversal_fixed_window_witness :
    runNext ⟨[⟨"A", "x"⟩] ++ [⟨"B", "y"⟩]⟩ 2
        (BookCollection.get_reverse_iterator ⟨[⟨"A", "x"⟩]⟩) =
      runNext ⟨[⟨"A", "x"⟩]⟩ 2
        (BookCollection.get_reverse_iterator ⟨[⟨"A", "x"⟩]⟩) ∧
    (runNext ⟨[⟨"A", "x"⟩]⟩ (⟨[⟨"A", "x"⟩]⟩ : BookCollection).count
        (BookCollection.get_reverse_iterator ⟨[⟨"A", "x"⟩]⟩)).1 =
      (⟨[⟨"A", "x"⟩]⟩ : BookCollection).books.reverse.map Except.ok :=
  reverse_traversal_fixed_window ⟨[⟨"A", "x"⟩]⟩ [⟨"B", "y"⟩] 2

/-- Claim C3 is refuted for reverse traversals: a book appended after a
reverse iterator was created is invisible to it — the run over the grown
collection is identical to the run over the original one, the appended
book is never among its results, and the iterator ends Exhausted. -/
theorem reverse_append_invisible_cex :
    runNext (BookCollection.add_book ⟨[⟨"A", "x"⟩]⟩ ⟨"B", "y"⟩) 3
        (BookCollection.get_reverse_iterator ⟨[⟨"A", "x"⟩]⟩) =
      runNext ⟨[⟨"A", "x"⟩]⟩ 3
        (BookCollection.get_reverse_iterator ⟨[⟨"A", "x"⟩]⟩) ∧
    Except.ok (⟨"B", "y"⟩ : Book) ∉
      (runNext (BookCollection.add_book ⟨[⟨"A", "x"⟩]⟩ ⟨"B", "y"⟩) 3
        (BookCollection.get_reverse_iterator ⟨[⟨"A", "x"⟩]⟩)).1 ∧
    ((runNext (BookCollection.add_book ⟨[⟨"A", "x"⟩]⟩ ⟨"B", "y"⟩) 3
        (BookCollection.get_reverse_iterator ⟨[⟨"A", "x"⟩]⟩)).2).has_next
      (BookCollection.add_book ⟨[⟨"A", "x"⟩]⟩ ⟨"B", "y"⟩) = false := by
  decide

/-- Claim C3 (amended): only forward traversals see later appends.  A
forward iterator whose cursor is at any reachable position `p ≤ count`
returns the appended book during the remainder of its run over the grown
collection, and a forward iterator that had reached the end becomes
Active again after the append (lookups are by live index, not a copy). -/
theorem forward_traversal_sees_append (c : BookCollection) (b : Book)
    (p : Nat) (hp : p ≤ c.count) :
    Except.ok b ∈
      (runNext (c.add_book b) (c.count + 1 - p) ⟨false, (p : Int)⟩).1 ∧
    (⟨false, (c.count : Int)⟩ : BookIterator).has_next (c.add_book b) =
      true := by
  have hlen : (c.add_book b).books = c.books ++ [b] := rfl
  constructor
  · have harg : p + (c.count + 1 - p) = (c.add_book b).books.length := by
      simp only [BookCollection.count] at hp
      simp only [BookCollection.count, BookCollection.add_book,
        List.length_append, List.length_cons, List.length_nil]
      omega
    rw [runNext_forward (c.add_book b) (c.count + 1 - p) p harg]
    have hdrop : (c.add_book b).books.drop p = c.books.drop p ++ [b] := by
      rw [hlen]
      exact List.drop_append_of_le_length hp
    simp [hdrop]
  · simp [BookIterator.has_next, BookCollection.add_book,
      BookCollection.count]

theorem forward_traversal_sees_append_witness :
    (1 : Nat) ≤ (⟨[⟨"A", "x"⟩]⟩ : BookCollection).count ∧
    (Except.ok (⟨"B", "y"⟩ : Book) ∈
      (runNext (BookCollection.add_book ⟨[⟨"A", "x"⟩]⟩ ⟨"B", "y"⟩)
        ((⟨[⟨"A", "x"⟩]⟩ : BookCollection).count + 1 - 1)
        ⟨false, ((1 : Nat) : Int)⟩).1 ∧
    (⟨false, (((⟨[⟨"A", "x"⟩]⟩ : BookCollection).count : Nat) : Int)⟩ :
        BookIterator).has_next
      (BookCollection.add_book ⟨[⟨"A", "x"⟩]⟩ ⟨"B", "y"⟩) = true) :=
  ⟨by decide,
    forward_traversal_sees_append ⟨[⟨"A", "x"⟩]⟩ ⟨"B", "y"⟩ 1 (by decide)⟩

/-- Claim C4 is refuted: an exhausted forward iterator does not stay
Exhausted under appends to the collection — after `add_book` its
`has_next` is true again and `__next__` succeeds, returning the appended
book. -/
theorem exhausted_not_permanent_cex :
    ((runNext ⟨[⟨"A", "x"⟩]⟩ 1
        (BookCollection.create_iterator ⟨[⟨"A", "x"⟩]⟩)).2).has_next
      ⟨[⟨"A", "x"⟩]⟩ = false ∧
    ((runNext ⟨[⟨"A", "x"⟩]⟩ 1
        (BookCollection.create_iterator ⟨[⟨"A", "x"⟩]⟩)).2).has_next
      (BookCollection.add_book ⟨[⟨"A", "x"⟩]⟩ ⟨"B", "y"⟩) = true ∧
    ((runNext ⟨[⟨"A", "x"⟩]⟩ 1
        (BookCollection.create_iterator ⟨[⟨"A", "x"⟩]⟩)).2).next
      (BookCollection.add_book ⟨[⟨"A", "x"⟩]⟩ ⟨"B", "y"⟩) =
      .ok (⟨"B", "y"⟩, ⟨false, 2⟩) := by
  decide

/-- Claim C4 (amended): with the collection unchanged, an Exhausted
iterator stays Exhausted permanently — any number of further `__next__`
calls leaves the cursor exactly where it is and `has_next` false (no
wraparound, no reset); a reverse iterator moreover stays Exhausted even
across appends.  A forward iterator, however, can leave the Exhausted
state when the collection grows (see the counterexample). -/
theorem exhausted_stays_exhausted_without_append (c : BookCollection)
    (it : BookIterator) (h : it.has_next c = false) :
    (∀ k : Nat, (runNext c k it).2 = it ∧
      ((runNext c k it).2).has_next c = false) ∧
    (it.reverse = true → ∀ b : Book, it.has_next (c.add_book b) = false) := by
  constructor
  · intro k
    rw [runNext_exhausted c it h k]
    exact ⟨rfl, h⟩
  · intro hr b
    simp [BookIterator.has_next, hr] at h ⊢
    exact h

theorem exhausted_stays_exhausted_without_append_witness :
    (runNext ⟨[⟨"A", "x"⟩]⟩ 2 ⟨true, -1⟩).2 = ⟨true, -1⟩ ∧
    ((runNext ⟨[⟨"A", "x"⟩]⟩ 2 ⟨true, -1⟩).2).has_next ⟨[⟨"A", "x"⟩]⟩ =
      false ∧
    (⟨true, -1⟩ : BookIterator).has_next
      (BookCollection.add_book ⟨[⟨"A", "x"⟩]⟩ ⟨"B", "y"⟩) = false :=
  ⟨((exhausted_stays_exhausted_without_append ⟨[⟨"A", "x"⟩]⟩ ⟨true, -1⟩
      (by decide)).1 2).1,
    ((exhausted_stays_exhausted_without_append ⟨[⟨"A", "x"⟩]⟩ ⟨true, -1⟩
      (by decide)).1 2).2,
    (exhausted_stays_exhausted_without_append ⟨[⟨"A", "x"⟩]⟩ ⟨true, -1⟩
      (by decide)).2 rfl ⟨"B", "y"⟩⟩
